import Mathlib

/-
Verification development for the PyramidAGI/Homeostat repository.

The core under study is the rule-based homeostatic control engine that
appears in two variants:
  * `Homeostat` in grok4homeostat.py (single-word variables, no clamping);
  * `BarHomeostat` in bar_fightshomeostat.py (multi-word variables,
    non-negative clamping, a `using <label>` clause).

State values are modelled as rationals (`ℚ`); the Python floats only ever
hold small decimal values in the behaviours under study, and all claims are
about exact arithmetic relations.  Python's `re.match` with the fixed rule
pattern is modelled by a deterministic recursive parser; the only
backtracking the patterns allow (the comparator alternation, the trailing
`.` giving back one digit, and the greedy `[\w\s]+` groups of the bar
variant) is implemented explicitly, longest-first, as the `re` engine does.
Randomness is modelled by oracle streams (one `random.random()` draw and
one `random.uniform` draw per iteration per variable).  A Python `KeyError`
is modelled as an `Except.error` carrying the offending key together with
the history accumulated so far (`self.history` has already been mutated
when the exception escapes `run`).  The terminal messages printed by `run`
("System stabilized." / "Max iterations reached ...") are modelled as the
`reason` field of the returned record; when neither message is printed
(negative `max_iterations`) the reason is `noMessage`.
-/

namespace HomeoCommon

/-- Python regex `\w`: word characters (letters, digits, underscore). -/
def isWordChar (c : Char) : Bool := c.isAlphanum || c = '_'

/-- Python regex character class `[\w\s]`: word characters or whitespace. -/
def isWS (c : Char) : Bool := isWordChar c || c.isWhitespace

/-- Maximal run of characters satisfying `p`, together with the rest:
the behaviour of a greedy `p+` whose continuation starts with a
non-`p` character. -/
def takeRun (p : Char → Bool) : List Char → List Char × List Char
  | [] => ([], [])
  | c :: cs =>
    if p c then
      let r := takeRun p cs
      (c :: r.1, r.2)
    else ([], c :: cs)

/-- Match a literal fragment of the regex pattern against the input,
returning the remaining input on success. -/
def expectLit : List Char → List Char → Option (List Char)
  | [], s => some s
  | _ :: _, [] => none
  | l :: ls, c :: cs => if c = l then expectLit ls cs else none

/-- Value of a digit string, as Python's `int` builds it. -/
def natOfDigits (ds : List Char) : Nat :=
  ds.foldl (fun n c => 10 * n + (c.toNat - 48)) 0

/-- Python's builtin `abs` on our rationals. -/
def pyAbs (q : ℚ) : ℚ := if q < 0 then -q else q

/-- Python's builtin `max` on two rationals. -/
def pyMax (a b : ℚ) : ℚ := if a < b then b else a

/-- A Python dict from variable names to numeric values, as an insertion
ordered association list with distinct keys. -/
abbrev SMap := List (String × ℚ)

/-- Dict lookup `m[key]`, `none` modelling a `KeyError`. -/
def lookup : SMap → String → Option ℚ
  | [], _ => none
  | (k, v) :: rest, key => if k = key then some v else lookup rest key

/-- Dict update `m[key] = x` for a key already present. -/
def setVal : SMap → String → ℚ → SMap
  | [], _, _ => []
  | (k, v) :: rest, key, x =>
    if k = key then (k, x) :: rest else (k, v) :: setVal rest key x

/-- The stability check
`all(abs(self.state[var] - self.setpoint[var]) < 0.01 for var in self.state)`
(grok4homeostat.py line 52, bar_fightshomeostat.py line 56).  The generator
is evaluated left to right and `all` stops at the first `False`, so a
missing setpoint key raises `KeyError` only if every earlier variable was
within tolerance. -/
def stableCheck : SMap → SMap → Except String Bool
  | [], _ => .ok true
  | (k, v) :: rest, sp =>
    match lookup sp k with
    | none => .error k
    | some t => if pyAbs (v - t) < 1 / 100 then stableCheck rest sp else .ok false

/-- One call of `apply_perturbation` (grok4homeostat.py lines 39-45,
bar_fightshomeostat.py lines 43-49): for each variable, if this tick's
`random.random()` draw is below `chance`, the `random.uniform` draw is
added to the value. -/
def perturb (chance : ℚ) (randv noisev : String → ℚ) (st : SMap) : SMap :=
  st.map fun kv => if randv kv.1 < chance then (kv.1, kv.2 + noisev kv.1) else kv

/-- The rule condition of grok4homeostat.py lines 70-72 (identical in
bar_fightshomeostat.py lines 73-75): the parsed comparison word decides
which comparison with the setpoint is made, with strict `< 0.01` for
"equal to". -/
def condHolds (comp : String) (current target : ℚ) : Bool :=
  (decide (comp = "above") && decide (current > target)) ||
  (decide (comp = "below") && decide (current < target)) ||
  (decide (comp = "equal to") && decide (pyAbs (current - target) < 1 / 100))

/-- Which terminal message `run` prints: "System stabilized." on the
stable break, "Max iterations reached ..." when the loop exhausts with
`iteration == max_iterations`, and nothing when the loop body never ran
because `max_iterations` was negative. -/
inductive TermReason where
  | stabilized
  | maxIterationsReached
  | noMessage
deriving DecidableEq, Repr

/-- What `run` returns, `(self.state, self.history)`, together with the
terminal message it printed. -/
structure RunResult where
  finalState : SMap
  history : List SMap
  reason : TermReason
deriving DecidableEq, Repr

/-- A `KeyError` escaping `run`: the missing key and the value of
`self.history` at the moment the exception is raised. -/
structure RunError where
  key : String
  history : List SMap
deriving DecidableEq, Repr

end HomeoCommon

namespace Grok4

open HomeoCommon

/-- The part of the grok4homeostat.py rule pattern after the comparator:
` the setpoint, then (\w+) the (\w+) by (\d+).` — returns the adjustment
word, the action variable, and the digits of the amount.  `re.match` does
not anchor the end of the input, so the final `.` consumes one arbitrary
character, taking one digit back from the greedy `\d+` when the input ends
right after the digits. -/
def tailParse (s : List Char) : Option (List Char × List Char × List Char) :=
  match expectLit " the setpoint, then ".data s with
  | none => none
  | some s1 =>
    match takeRun isWordChar s1 with
    | (g3, s2) =>
      if g3 = [] then none else
      match expectLit " the ".data s2 with
      | none => none
      | some s3 =>
        match takeRun isWordChar s3 with
        | (g4, s4) =>
          if g4 = [] then none else
          match expectLit " by ".data s4 with
          | none => none
          | some s5 =>
            match takeRun Char.isDigit s5 with
            | (ds, s6) =>
              if ds = [] then none else
              match s6 with
              | _ :: _ => some (g3, g4, ds)
              | [] => if 2 ≤ ds.length then some (g3, g4, ds.dropLast) else none

/-- The comparator alternation `(\w+ \w+|\w+)` followed by the rest of the
pattern.  As in the `re` engine, the two-word alternative is committed to
only if the whole remainder of the pattern succeeds after it; otherwise
the one-word alternative is tried. -/
def compParse (s : List Char) :
    Option (List Char × List Char × List Char × List Char) :=
  (match takeRun isWordChar s with
   | (w1, t1) =>
     if w1 = [] then none else
     match t1 with
     | ' ' :: t2 =>
       match takeRun isWordChar t2 with
       | (w2, t3) =>
         if w2 = [] then none else
         match tailParse t3 with
         | none => none
         | some tg => some (w1 ++ ' ' :: w2, tg)
     | _ => none) <|>
  (match takeRun isWordChar s with
   | (w1, t1) =>
     if w1 = [] then none else
     match tailParse t1 with
     | none => none
     | some tg => some (w1, tg))

/-- `Homeostat.parse_rule` (grok4homeostat.py lines 21-37): match
`If the (\w+) is (\w+ \w+|\w+) the setpoint, then (\w+) the (\w+) by (\d+).`
against the rule text; on a match with differing condition and action
variables return `None`, otherwise the tuple
`(variable, comparison, adjustment, amount)`. -/
def parse_rule (rule : String) : Option (String × String × String × Nat) :=
  match expectLit "If the ".data rule.data with
  | none => none
  | some s1 =>
    match takeRun isWordChar s1 with
    | (g1, s2) =>
      if g1 = [] then none else
      match expectLit " is ".data s2 with
      | none => none
      | some s3 =>
        match compParse s3 with
        | none => none
        | some (comp, g3, g4, ds) =>
          if g1 ≠ g4 then none
          else some (⟨g1⟩, ⟨comp⟩, ⟨g3⟩, natOfDigits ds)

/-- The action application of grok4homeostat.py lines 74-79: decrease or
increase `state[var]` by the amount, or leave the state unchanged for
"maintain" (and for any other adjustment word the regex let through). -/
def applyAdj (st : SMap) (var : String) (current : ℚ) (adj : String)
    (amt : Nat) : SMap :=
  if adj = "decrease" then setVal st var (current - amt)
  else if adj = "increase" then setVal st var (current + amt)
  else st

/-- The rule loop of grok4homeostat.py lines 59-86: scan the rule texts in
order; skip texts that fail to parse and parsed rules whose variable is
not in the state; on the first rule whose condition holds, apply its
action and stop (`break`), reporting `applied = True`.  Reading
`self.setpoint[var]` for a variable missing from the setpoint raises
`KeyError`. -/
def ruleStep (sp : SMap) (st : SMap) : List String → Except String (SMap × Bool)
  | [] => .ok (st, false)
  | r :: rest =>
    match parse_rule r with
    | none => ruleStep sp st rest
    | some (v, comp, adj, amt) =>
      match lookup st v with
      | none => ruleStep sp st rest
      | some current =>
        match lookup sp v with
        | none => .error v
        | some target =>
          if condHolds comp current target then
            .ok (applyAdj st v current adj amt, true)
          else ruleStep sp st rest

/-- The while-loop of `Homeostat.run` (grok4homeostat.py lines 49-92),
with `fuel = max_iterations - iteration` remaining loop entries and the
history accumulated in reverse.  Each entry appends a snapshot, breaks on
stability, perturbs, runs the rule loop, and recurses. -/
def runAux (sp : SMap) (rules : List String) (chance : ℚ)
    (randd noised : Nat → String → ℚ) (maxIter : ℤ) :
    Nat → Nat → SMap → List SMap → Except RunError RunResult
  | 0, iter, st, hist =>
    .ok ⟨st, hist.reverse,
      if (iter : ℤ) = maxIter then .maxIterationsReached else .noMessage⟩
  | fuel + 1, iter, st, hist =>
    let hist1 := st :: hist
    match stableCheck st sp with
    | .error k => .error ⟨k, hist1.reverse⟩
    | .ok true => .ok ⟨st, hist1.reverse, .stabilized⟩
    | .ok false =>
      let st1 := perturb chance (randd iter) (noised iter) st
      match ruleStep sp st1 rules with
      | .error k => .error ⟨k, hist1.reverse⟩
      | .ok (st2, _) =>
        runAux sp rules chance randd noised maxIter fuel (iter + 1) st2 hist1

/-- `Homeostat.run` (grok4homeostat.py lines 47-92) on a homeostat built
from `initial_state`, `setpoint`, `rules`, `max_iterations` and
`perturbation_chance`, with the per-iteration random draws supplied by the
oracles `randd` (the `random.random()` stream) and `noised` (the
`random.uniform(-1, 1)` stream). -/
def run (init sp : SMap) (rules : List String) (maxIter : ℤ) (chance : ℚ)
    (randd noised : Nat → String → ℚ) : Except RunError RunResult :=
  runAux sp rules chance randd noised maxIter maxIter.toNat 0 init []

/-- The example rule list of grok4homeostat.py lines 95-99. -/
def exampleRules : List String :=
  ["If the temperature is above the setpoint, then decrease the temperature by 2.",
   "If the temperature is below the setpoint, then increase the temperature by 1.",
   "If the temperature is equal to the setpoint, then maintain the temperature by 0."]

/-- A rule text the rule loop passes over without applying anything and
without error: it fails to parse, or its variable is not in the state, or
its variable is known in both mappings and its condition is false. -/
def skipsClean (sp st : SMap) (r : String) : Prop :=
  parse_rule r = none ∨
  ∃ v c a n, parse_rule r = some (v, c, a, n) ∧
    (lookup st v = none ∨
      ∃ cur tgt, lookup st v = some cur ∧ lookup sp v = some tgt ∧
        condHolds c cur tgt = false)

end Grok4

namespace Bar

open HomeoCommon

/-- Backtracking for a greedy captured group followed by the rest of the
pattern: the candidate group starts as the whole maximal run (held
reversed in the first argument) and gives characters back from its right
end, one at a time, until the continuation `cont` succeeds on what
follows; the first (longest) successful candidate is returned together
with the continuation's answer, exactly as the `re` engine resolves a
greedy `(...+)`. -/
def btRev (cont : List Char → Option α) : List Char → List Char → Option (List Char × α)
  | [], _ => none
  | c :: rp, rest =>
    match cont rest with
    | some a => some ((c :: rp).reverse, a)
    | none => btRev cont rp (c :: rest)

/-- The final `.` of the bar pattern: one arbitrary character must follow
(the pattern is not anchored at the end). -/
def dotCont : List Char → Option Unit
  | [] => none
  | _ :: _ => some ()

/-- From ` by ` on in the bar pattern:
` by (\d+) using ([\w\s]+).` — returns the digits of the amount and the
`using`-label group. -/
def byCont (s : List Char) : Option (List Char × List Char) :=
  match expectLit " by ".data s with
  | none => none
  | some s1 =>
    match takeRun Char.isDigit s1 with
    | (ds, s2) =>
      if ds = [] then none else
      match expectLit " using ".data s2 with
      | none => none
      | some s3 =>
        match takeRun isWS s3 with
        | (run6, r6) =>
          match btRev dotCont run6.reverse r6 with
          | none => none
          | some (g6, _) => some (ds, g6)

/-- The part of the bar pattern after the comparator:
` the setpoint, then (\w+) the ([\w\s]+) by (\d+) using ([\w\s]+).` —
returns the adjustment word, the greedy action-variable group, the amount
digits and the label group. -/
def tailParse (s : List Char) :
    Option (List Char × List Char × List Char × List Char) :=
  match expectLit " the setpoint, then ".data s with
  | none => none
  | some s1 =>
    match takeRun isWordChar s1 with
    | (g3, s2) =>
      if g3 = [] then none else
      match expectLit " the ".data s2 with
      | none => none
      | some s3 =>
        match takeRun isWS s3 with
        | (run4, r4) =>
          match btRev byCont run4.reverse r4 with
          | none => none
          | some (g4, ds, g6) => some (g3, g4, ds, g6)

/-- The comparator alternation `(\w+ \w+|\w+)` of the bar pattern followed
by the rest of the pattern, two-word alternative first. -/
def compParse (s : List Char) :
    Option (List Char × List Char × List Char × List Char × List Char) :=
  (match takeRun isWordChar s with
   | (w1, t1) =>
     if w1 = [] then none else
     match t1 with
     | ' ' :: t2 =>
       match takeRun isWordChar t2 with
       | (w2, t3) =>
         if w2 = [] then none else
         match tailParse t3 with
         | none => none
         | some tg => some (w1 ++ ' ' :: w2, tg)
     | _ => none) <|>
  (match takeRun isWordChar s with
   | (w1, t1) =>
     if w1 = [] then none else
     match tailParse t1 with
     | none => none
     | some tg => some (w1, tg))

/-- The continuation after the first greedy group of the bar pattern:
` is ` then the comparator and the rest of the pattern. -/
def afterVarCont (s : List Char) :
    Option (List Char × List Char × List Char × List Char × List Char) :=
  match expectLit " is ".data s with
  | none => none
  | some s1 => compParse s1

/-- Python's `str.strip('.')`: remove leading and trailing `'.'`
characters (bar_fightshomeostat.py line 37). -/
def stripDots (s : List Char) : List Char :=
  ((s.dropWhile (· = '.')).reverse.dropWhile (· = '.')).reverse

/-- `BarHomeostat.parse_rule` (bar_fightshomeostat.py lines 25-41): match
`If the ([\w\s]+) is (\w+ \w+|\w+) the setpoint, then (\w+) the ([\w\s]+) by (\d+) using ([\w\s]+).`
against the rule text; on a match with differing condition and action
variables return `None`, otherwise
`(variable, comparison, adjustment, amount, bar_action)`. -/
def parse_rule (rule : String) :
    Option (String × String × String × Nat × String) :=
  match expectLit "If the ".data rule.data with
  | none => none
  | some s1 =>
    match takeRun isWS s1 with
    | (run1, r1) =>
      match btRev afterVarCont run1.reverse r1 with
      | none => none
      | some (g1, comp, g3, g4, ds, g6) =>
        if g1 ≠ g4 then none
        else some (⟨g1⟩, ⟨comp⟩, ⟨g3⟩, natOfDigits ds, ⟨stripDots g6⟩)

/-- The action application of bar_fightshomeostat.py lines 76-83: adjust
the value as the adjustment word says, then clamp the stored value with
`max(0, ...)` — the clamp runs for every applied rule, including
"maintain". -/
def applyAdj (st : SMap) (var : String) (current : ℚ) (adj : String)
    (amt : Nat) : SMap :=
  let v :=
    if adj = "decrease" then current - amt
    else if adj = "increase" then current + amt
    else current
  setVal st var (pyMax 0 v)

/-- The rule loop of bar_fightshomeostat.py lines 63-86, first match wins,
with `KeyError` on a setpoint lookup for a variable missing from the
setpoint. -/
def ruleStep (sp : SMap) (st : SMap) : List String → Except String (SMap × Bool)
  | [] => .ok (st, false)
  | r :: rest =>
    match parse_rule r with
    | none => ruleStep sp st rest
    | some (v, comp, adj, amt, _) =>
      match lookup st v with
      | none => ruleStep sp st rest
      | some current =>
        match lookup sp v with
        | none => .error v
        | some target =>
          if condHolds comp current target then
            .ok (applyAdj st v current adj amt, true)
          else ruleStep sp st rest

/-- The while-loop of `BarHomeostat.run` (bar_fightshomeostat.py lines
51-96), same shape as the grok4 loop. -/
def runAux (sp : SMap) (rules : List String) (chance : ℚ)
    (randd noised : Nat → String → ℚ) (maxIter : ℤ) :
    Nat → Nat → SMap → List SMap → Except RunError RunResult
  | 0, iter, st, hist =>
    .ok ⟨st, hist.reverse,
      if (iter : ℤ) = maxIter then .maxIterationsReached else .noMessage⟩
  | fuel + 1, iter, st, hist =>
    let hist1 := st :: hist
    match stableCheck st sp with
    | .error k => .error ⟨k, hist1.reverse⟩
    | .ok true => .ok ⟨st, hist1.reverse, .stabilized⟩
    | .ok false =>
      let st1 := perturb chance (randd iter) (noised iter) st
      match ruleStep sp st1 rules with
      | .error k => .error ⟨k, hist1.reverse⟩
      | .ok (st2, _) =>
        runAux sp rules chance randd noised maxIter fuel (iter + 1) st2 hist1

/-- `BarHomeostat.run` (bar_fightshomeostat.py lines 51-96) with the
per-iteration random draws supplied by oracles; `noised` models the
`random.uniform(0, 2)` stream of `apply_perturbation`. -/
def run (init sp : SMap) (rules : List String) (maxIter : ℤ) (chance : ℚ)
    (randd noised : Nat → String → ℚ) : Except RunError RunResult :=
  runAux sp rules chance randd noised maxIter maxIter.toNat 0 init []

end Bar

namespace HomeoCommon

lemma expectLit_self_append (p s : List Char) : expectLit p (p ++ s) = some s := by
  induction p with
  | nil => rfl
  | cons c cs ih => simp [expectLit, ih]

lemma takeRun_append_cons (p : Char → Bool) (a : List Char) (b0 : Char)
    (t : List Char) (ha : ∀ c ∈ a, p c = true) (hb : p b0 = false) :
    takeRun p (a ++ b0 :: t) = (a, b0 :: t) := by
  induction a with
  | nil => simp [takeRun, hb]
  | cons c cs ih =>
    have hc : p c = true := ha c (List.mem_cons_self c cs)
    have ih' := ih (fun x hx => ha x (List.mem_cons_of_mem c hx))
    simp [takeRun, hc, ih']

lemma lookup_cons_self (k : String) (x : ℚ) (rest : SMap) :
    lookup ((k, x) :: rest) k = some x := by simp [lookup]

lemma takeRun_append_all (p : Char → Bool) (a rest : List Char)
    (ha : ∀ c ∈ a, p c = true) :
    takeRun p (a ++ rest) = (a ++ (takeRun p rest).1, (takeRun p rest).2) := by
  induction a with
  | nil => simp
  | cons c cs ih =>
    have hc : p c = true := ha c (List.mem_cons_self c cs)
    have ih' := ih (fun x hx => ha x (List.mem_cons_of_mem c hx))
    simp [takeRun, hc, ih']

lemma isWS_of_alpha {c : Char} (h : c.isAlpha = true) : isWS c = true := by
  simp [isWS, isWordChar, Char.isAlphanum, h]

lemma perturb_zero (randv noisev : String → ℚ) (st : SMap)
    (h : ∀ v, 0 ≤ randv v) : perturb 0 randv noisev st = st := by
  induction st with
  | nil => rfl
  | cons kv rest ih =>
    simp only [perturb, List.map_cons, if_neg (not_lt.mpr (h kv.1))]
    simpa [perturb] using ih

end HomeoCommon

namespace Grok4

open HomeoCommon

lemma runAux_stable {sp : SMap} {rules : List String} {chance : ℚ}
    {randd noised : Nat → String → ℚ} {maxIter : ℤ} {fuel iter : ℕ}
    {st : SMap} {hist : List SMap} (h : stableCheck st sp = .ok true) :
    runAux sp rules chance randd noised maxIter (fuel + 1) iter st hist
      = .ok ⟨st, (st :: hist).reverse, .stabilized⟩ := by
  simp [runAux, h]

lemma runAux_step {sp : SMap} {rules : List String} {chance : ℚ}
    {randd noised : Nat → String → ℚ} {maxIter : ℤ} {fuel iter : ℕ}
    {st st2 : SMap} {hist : List SMap} {b : Bool}
    (h1 : stableCheck st sp = .ok false)
    (h2 : ruleStep sp (perturb chance (randd iter) (noised iter) st) rules
        = .ok (st2, b)) :
    runAux sp rules chance randd noised maxIter (fuel + 1) iter st hist
      = runAux sp rules chance randd noised maxIter fuel (iter + 1) st2 (st :: hist) := by
  simp [runAux, h1, h2]

/-- With an empty rule list, zero perturbation chance and a start state
out of tolerance, every loop entry leaves the state unchanged, so the loop
spends all its fuel appending identical snapshots. -/
lemma runAux_empty_rules {sp : SMap} {randd noised : Nat → String → ℚ}
    {maxIter : ℤ} {st : SMap} (hst : stableCheck st sp = .ok false)
    (hr : ∀ i v, 0 ≤ randd i v) :
    ∀ (fuel iter : ℕ) (hist : List SMap),
      runAux sp [] 0 randd noised maxIter fuel iter st hist
        = .ok ⟨st, hist.reverse ++ List.replicate fuel st,
            if ((iter : ℤ) + fuel) = maxIter then .maxIterationsReached
            else .noMessage⟩ := by
  intro fuel
  induction fuel with
  | zero => intro iter hist; simp [runAux]
  | succ f ih =>
    intro iter hist
    have h2 : ruleStep sp (perturb 0 (randd iter) (noised iter) st) []
        = .ok (st, false) := by
      rw [perturb_zero _ _ _ (fun v => hr iter v)]; rfl
    rw [runAux_step hst h2, ih (iter + 1) (st :: hist)]
    have hcast : ((iter + 1 : ℕ) : ℤ) + (f : ℤ) = (iter : ℤ) + ((f + 1 : ℕ) : ℤ) := by
      push_cast; ring
    rw [hcast]
    simp [List.replicate_succ, List.reverse_cons, List.append_assoc]

/-- A run that returned with the stabilized message broke out of the loop
at a passing stability check, so its final state passes the stability
check. -/
lemma runAux_ok_stabilized {sp : SMap} {rules : List String} {chance : ℚ}
    {randd noised : Nat → String → ℚ} {maxIter : ℤ} :
    ∀ (fuel iter : ℕ) (st : SMap) (hist : List SMap) (res : RunResult),
      runAux sp rules chance randd noised maxIter fuel iter st hist = .ok res →
      res.reason = .stabilized →
      stableCheck res.finalState sp = .ok true := by
  intro fuel
  induction fuel with
  | zero =>
    intro iter st hist res h hres
    simp only [runAux] at h
    cases h
    split at hres <;> simp at hres
  | succ f ih =>
    intro iter st hist res h hres
    simp only [runAux] at h
    cases hst : stableCheck st sp with
    | error e => rw [hst] at h; cases h
    | ok b =>
      rw [hst] at h
      cases b with
      | true =>
        cases h
        exact hst
      | false =>
        cases hrs : ruleStep sp (perturb chance (randd iter) (noised iter) st) rules with
        | error e => rw [hrs] at h; cases h
        | ok p => rw [hrs] at h; exact ih (iter + 1) p.1 (st :: hist) res h hres

/-- A run can only return with the stabilized message if the loop body ran
at least once. -/
lemma run_stabilized_fuel_pos {init sp : SMap} {rules : List String}
    {maxIter : ℤ} {chance : ℚ} {randd noised : Nat → String → ℚ}
    {res : RunResult}
    (h : run init sp rules maxIter chance randd noised = .ok res)
    (hres : res.reason = .stabilized) : 1 ≤ maxIter.toNat := by
  by_contra hnot
  have h0 : maxIter.toNat = 0 := by omega
  unfold run at h
  rw [h0] at h
  simp only [runAux] at h
  cases h
  split at hres <;> simp at hres

end Grok4

namespace Bar

open HomeoCommon

/-- When the continuation succeeds on the very first (longest) candidate,
the greedy group is the whole run. -/
lemma btRev_head_some {α : Type} (cont : List Char → Option α)
    {rp rest : List Char} {a : α} (hrp : rp ≠ []) (h : cont rest = some a) :
    btRev cont rp rest = some (rp.reverse, a) := by
  cases rp with
  | nil => exact absurd rfl hrp
  | cons c l => simp [btRev, h]

lemma pyMax_zero_nonneg (v : ℚ) : 0 ≤ pyMax 0 v := by
  unfold pyMax
  split <;> [linarith; exact le_refl 0]

lemma setVal_nonneg {st : SMap} {k : String} {x : ℚ}
    (hst : ∀ kv ∈ st, 0 ≤ kv.2) (hx : 0 ≤ x) :
    ∀ kv ∈ setVal st k x, 0 ≤ kv.2 := by
  induction st with
  | nil => intro kv hkv; simp [setVal] at hkv
  | cons hd tl ih =>
    intro kv hkv
    obtain ⟨k0, v0⟩ := hd
    simp only [setVal] at hkv
    split at hkv
    · rcases List.mem_cons.mp hkv with rfl | hmem
      · exact hx
      · exact hst kv (List.mem_cons_of_mem _ hmem)
    · rcases List.mem_cons.mp hkv with rfl | hmem
      · exact hst _ (List.mem_cons_self _ _)
      · exact ih (fun y hy => hst y (List.mem_cons_of_mem _ hy)) kv hmem

lemma applyAdj_nonneg {st : SMap} {var : String} {current : ℚ} {adj : String}
    {amt : Nat} (hst : ∀ kv ∈ st, 0 ≤ kv.2) :
    ∀ kv ∈ applyAdj st var current adj amt, 0 ≤ kv.2 := by
  unfold applyAdj
  exact setVal_nonneg hst (pyMax_zero_nonneg _)

lemma perturb_nonneg {chance : ℚ} {randv noisev : String → ℚ} {st : SMap}
    (hst : ∀ kv ∈ st, 0 ≤ kv.2) (hn : ∀ v, 0 ≤ noisev v) :
    ∀ kv ∈ perturb chance randv noisev st, 0 ≤ kv.2 := by
  intro kv hkv
  simp only [perturb, List.mem_map] at hkv
  obtain ⟨⟨k, x⟩, hmem, heq⟩ := hkv
  split at heq
  · rw [← heq]
    exact add_nonneg (hst _ hmem) (hn k)
  · rw [← heq]
    exact hst _ hmem

lemma ruleStep_nonneg {sp st : SMap} {st2 : SMap} {b : Bool}
    (hst : ∀ kv ∈ st, 0 ≤ kv.2) :
    ∀ rules : List String, ruleStep sp st rules = .ok (st2, b) →
      ∀ kv ∈ st2, 0 ≤ kv.2 := by
  intro rules
  induction rules with
  | nil =>
    intro h
    simp only [ruleStep] at h
    cases h
    exact hst
  | cons r rest ih =>
    intro h
    simp only [ruleStep] at h
    cases hp : parse_rule r with
    | none => simp only [hp] at h; exact ih h
    | some q =>
      obtain ⟨v, c, a, n, lbl⟩ := q
      simp only [hp] at h
      cases hl : lookup st v with
      | none => simp only [hl] at h; exact ih h
      | some cur =>
        simp only [hl] at h
        cases ht : lookup sp v with
        | none => simp only [ht] at h; cases h
        | some tgt =>
          simp only [ht] at h
          by_cases hc : condHolds c cur tgt = true
          · rw [if_pos hc] at h
            cases h
            exact applyAdj_nonneg hst
          · rw [if_neg hc] at h
            exact ih h

lemma runAux_nonneg {sp : SMap} {rules : List String} {chance : ℚ}
    {randd noised : Nat → String → ℚ} {maxIter : ℤ}
    (hn : ∀ i v, 0 ≤ noised i v) :
    ∀ (fuel iter : ℕ) (st : SMap) (hist : List SMap) (res : RunResult),
      (∀ kv ∈ st, 0 ≤ kv.2) → (∀ s ∈ hist, ∀ kv ∈ s, 0 ≤ kv.2) →
      runAux sp rules chance randd noised maxIter fuel iter st hist = .ok res →
      (∀ s ∈ res.history, ∀ kv ∈ s, 0 ≤ kv.2) ∧ (∀ kv ∈ res.finalState, 0 ≤ kv.2) := by
  intro fuel
  induction fuel with
  | zero =>
    intro iter st hist res hst hhist h
    simp only [runAux] at h
    cases h
    exact ⟨fun s hs => hhist s (List.mem_reverse.mp hs), hst⟩
  | succ f ih =>
    intro iter st hist res hst hhist h
    simp only [runAux] at h
    cases hsc : stableCheck st sp with
    | error e => rw [hsc] at h; cases h
    | ok stable =>
      rw [hsc] at h
      cases stable with
      | true =>
        cases h
        refine ⟨fun s hs => ?_, hst⟩
        rcases List.mem_cons.mp (List.mem_reverse.mp hs) with rfl | hmem
        · exact hst
        · exact hhist s hmem
      | false =>
        have hst1 : ∀ kv ∈ perturb chance (randd iter) (noised iter) st, 0 ≤ kv.2 :=
          perturb_nonneg hst (fun v => hn iter v)
        cases hrs : ruleStep sp (perturb chance (randd iter) (noised iter) st) rules with
        | error e => rw [hrs] at h; cases h
        | ok p =>
          rw [hrs] at h
          have hst2 : ∀ kv ∈ p.1, 0 ≤ kv.2 := by
            obtain ⟨st2, b⟩ := p
            exact ruleStep_nonneg hst1 rules hrs
          refine ih (iter + 1) p.1 (st :: hist) res hst2 ?_ h
          intro s hs
          rcases List.mem_cons.mp hs with rfl | hmem
          · exact hst
          · exact hhist s hmem

end Bar

/-- Claim C7, counterexample.  The claim cites both parsers, but
`Homeostat.parse_rule` (grok4homeostat.py line 27) uses `(\w+)` for the
variable groups, which cannot match a space: the multi-word rule that
`BarHomeostat.parse_rule` accepts is rejected by `Homeostat.parse_rule`,
so parse does not succeed on every grammar-conforming multi-word rule. -/
theorem claim_C7_counterexample :
    Grok4.parse_rule
        "If the aggression level is above the setpoint, then decrease the aggression level by 2."
      = none ∧
    Bar.parse_rule
        "If the aggression level is above the setpoint, then decrease the aggression level by 2 using calming music."
      = some ("aggression level", "above", "decrease", 2, "calming music") := by
  constructor
  · rfl
  · with_unfolding_all rfl

section

open HomeoCommon Bar

/-- Claim C7, amended: multi-word variable phrases are accepted by
`BarHomeostat.parse_rule` but not by `Homeostat.parse_rule`.  For every
two-word variable phrase `w1 ++ " " ++ w2` of letters, with the
condition-clause and action-clause phrases identical, the bar parser
succeeds on `If the <v> is above the setpoint, then decrease the <v> by 2
using calming music.` and returns a rule whose variable equals that
multi-word phrase (the grok4 parser's `(\w+)` group rejects any variable
phrase containing a space — see the counterexample). -/
theorem claim_C7_amended (w1 w2 : List Char)
    (_h1 : w1 ≠ []) (_h2 : w2 ≠ [])
    (ha1 : ∀ c ∈ w1, c.isAlpha = true) (ha2 : ∀ c ∈ w2, c.isAlpha = true) :
    Bar.parse_rule
        ⟨"If the ".data ++ ((w1 ++ (' ' :: w2)) ++ (" is above the setpoint".data
          ++ (", then decrease the ".data ++ ((w1 ++ (' ' :: w2))
          ++ (" by 2 using calming music".data ++ ['.'])))))⟩
      = some (⟨w1 ++ (' ' :: w2)⟩, "above", "decrease", 2, "calming music") := by
  have mk_data : ∀ l : List Char, String.data ⟨l⟩ = l := fun _ => rfl
  have hw1 : ∀ c ∈ w1, isWS c = true := fun c hc => isWS_of_alpha (ha1 c hc)
  have hw2 : ∀ c ∈ w2, isWS c = true := fun c hc => isWS_of_alpha (ha2 c hc)
  have hskipA : ∀ (vr z : List Char),
      Bar.btRev Bar.afterVarCont ('t' :: 'n' :: 'i' :: 'o' :: 'p' :: 't' :: 'e' :: 's' :: ' ' :: 'e' :: 'h' :: 't' :: ' ' :: 'e' :: 'v' :: 'o' :: 'b' :: 'a' :: ' ' :: 's' :: 'i' :: ' ' :: vr) (',' :: z)
        = Bar.btRev Bar.afterVarCont vr (' ' :: 'i' :: 's' :: ' ' :: 'a' :: 'b' :: 'o' :: 'v' :: 'e' :: ' ' :: 't' :: 'h' :: 'e' :: ' ' :: 's' :: 'e' :: 't' :: 'p' :: 'o' :: 'i' :: 'n' :: 't' :: ',' :: z) :=
    fun vr z => rfl
  have hskipW2 : ∀ vr : List Char,
      Bar.btRev Bar.byCont ('c' :: 'i' :: 's' :: 'u' :: 'm' :: ' ' :: 'g' :: 'n' :: 'i' :: 'm' :: 'l' :: 'a' :: 'c' :: ' ' :: 'g' :: 'n' :: 'i' :: 's' :: 'u' :: ' ' :: '2' :: ' ' :: 'y' :: 'b' :: ' ' :: vr) ['.']
        = Bar.btRev Bar.byCont vr (' ' :: 'b' :: 'y' :: ' ' :: '2' :: ' ' :: 'u' :: 's' :: 'i' :: 'n' :: 'g' :: ' ' :: 'c' :: 'a' :: 'l' :: 'm' :: 'i' :: 'n' :: 'g' :: ' ' :: 'm' :: 'u' :: 's' :: 'i' :: 'c' :: '.' :: []) :=
    fun vr => rfl
  have takeRun_cons_pos : ∀ (p : Char → Bool) (c : Char) (t : List Char),
      p c = true → takeRun p (c :: t) = (c :: (takeRun p t).1, (takeRun p t).2) :=
    fun p c t h => by simp [takeRun, h]
  have hA : ∀ z : List Char,
      takeRun isWS (' ' :: 'i' :: 's' :: ' ' :: 'a' :: 'b' :: 'o' :: 'v' :: 'e' :: ' ' :: 't' :: 'h' :: 'e' :: ' ' :: 's' :: 'e' :: 't' :: 'p' :: 'o' :: 'i' :: 'n' :: 't' :: (',' :: z))
        = ([' ', 'i', 's', ' ', 'a', 'b', 'o', 'v', 'e', ' ', 't', 'h', 'e', ' ', 's', 'e', 't', 'p', 'o', 'i', 'n', 't'], ',' :: z) := fun z => rfl
  simp only [Bar.parse_rule, mk_data, expectLit_self_append]
  simp only [List.append_assoc, List.cons_append, List.nil_append]
  rw [takeRun_append_all isWS w1 _ hw1]
  rw [takeRun_cons_pos isWS ' ' _ (by decide)]
  rw [takeRun_append_all isWS w2 _ hw2]
  rw [hA]
  simp only []
  simp only [List.reverse_append, List.reverse_cons, List.reverse_nil,
    List.nil_append, List.append_assoc, List.cons_append]
  have hcont : Bar.afterVarCont
      (' ' :: 'i' :: 's' :: ' ' :: 'a' :: 'b' :: 'o' :: 'v' :: 'e' :: ' ' :: 't' :: 'h' :: 'e' :: ' ' :: 's' :: 'e' :: 't' :: 'p' :: 'o' :: 'i' :: 'n' :: 't' :: ',' :: ' ' :: 't' :: 'h' :: 'e' :: 'n' :: ' ' :: 'd' :: 'e' :: 'c' :: 'r' :: 'e' :: 'a' :: 's' :: 'e' :: ' ' :: 't' :: 'h' :: 'e' :: ' ' :: (w1 ++ ' ' :: (w2 ++ [' ', 'b', 'y', ' ', '2', ' ', 'u', 's', 'i', 'n', 'g', ' ', 'c', 'a', 'l', 'm', 'i', 'n', 'g', ' ', 'm', 'u', 's', 'i', 'c', '.'])))
      = some (['a', 'b', 'o', 'v', 'e'], ['d', 'e', 'c', 'r', 'e', 'a', 's', 'e'], w1 ++ ' ' :: w2, ['2'], ['c', 'a', 'l', 'm', 'i', 'n', 'g', ' ', 'm', 'u', 's', 'i', 'c']) := by
    have hisE : ∀ z : List Char,
        expectLit [' ', 'i', 's', ' '] (' ' :: 'i' :: 's' :: ' ' :: z) = some z := fun z => rfl
    have hab : ∀ z : List Char,
        takeRun isWordChar ('a' :: 'b' :: 'o' :: 'v' :: 'e' :: ' ' :: z) = (['a', 'b', 'o', 'v', 'e'], ' ' :: z) :=
      fun z => rfl
    have hthe : ∀ z : List Char,
        takeRun isWordChar ('t' :: 'h' :: 'e' :: ' ' :: z) = (['t', 'h', 'e'], ' ' :: z) :=
      fun z => rfl
    have htsFail : ∀ z : List Char,
        expectLit [' ', 't', 'h', 'e', ' ', 's', 'e', 't', 'p', 'o', 'i', 'n', 't', ',', ' ', 't', 'h', 'e', 'n', ' '] (' ' :: 's' :: z) = none := fun z => rfl
    have htsOk : ∀ z : List Char,
        expectLit [' ', 't', 'h', 'e', ' ', 's', 'e', 't', 'p', 'o', 'i', 'n', 't', ',', ' ', 't', 'h', 'e', 'n', ' '] (' ' :: 't' :: 'h' :: 'e' :: ' ' :: 's' :: 'e' :: 't' :: 'p' :: 'o' :: 'i' :: 'n' :: 't' :: ',' :: ' ' :: 't' :: 'h' :: 'e' :: 'n' :: ' ' :: z) = some z := fun z => rfl
    have hdec : ∀ z : List Char,
        takeRun isWordChar ('d' :: 'e' :: 'c' :: 'r' :: 'e' :: 'a' :: 's' :: 'e' :: ' ' :: z) = (['d', 'e', 'c', 'r', 'e', 'a', 's', 'e'], ' ' :: z) :=
      fun z => rfl
    have hthe2 : ∀ z : List Char,
        expectLit [' ', 't', 'h', 'e', ' '] (' ' :: 't' :: 'h' :: 'e' :: ' ' :: z) = some z := fun z => rfl
    have hW2run : takeRun isWS [' ', 'b', 'y', ' ', '2', ' ', 'u', 's', 'i', 'n', 'g', ' ', 'c', 'a', 'l', 'm', 'i', 'n', 'g', ' ', 'm', 'u', 's', 'i', 'c', '.'] = ([' ', 'b', 'y', ' ', '2', ' ', 'u', 's', 'i', 'n', 'g', ' ', 'c', 'a', 'l', 'm', 'i', 'n', 'g', ' ', 'm', 'u', 's', 'i', 'c'], ['.']) := rfl
    have hby : Bar.byCont (' ' :: 'b' :: 'y' :: ' ' :: '2' :: ' ' :: 'u' :: 's' :: 'i' :: 'n' :: 'g' :: ' ' :: 'c' :: 'a' :: 'l' :: 'm' :: 'i' :: 'n' :: 'g' :: ' ' :: 'm' :: 'u' :: 's' :: 'i' :: 'c' :: '.' :: []) = some (['2'], ['c', 'a', 'l', 'm', 'i', 'n', 'g', ' ', 'm', 'u', 's', 'i', 'c']) := by
      with_unfolding_all rfl
    have hrp4 : w2.reverse ++ ' ' :: w1.reverse ≠ [] := by simp
    simp only [Bar.afterVarCont, hisE, Bar.compParse, hab, hthe, Bar.tailParse,
      htsFail, htsOk, hdec, hthe2, Option.none_orElse]
    rw [takeRun_append_all isWS w1 _ hw1, takeRun_cons_pos isWS ' ' _ (by decide),
      takeRun_append_all isWS w2 _ hw2, hW2run]
    simp only []
    simp only [List.reverse_append, List.reverse_cons, List.reverse_nil,
      List.nil_append, List.append_assoc, List.cons_append]
    rw [hskipW2]
    rw [btRev_head_some Bar.byCont hrp4 hby]
    simp [List.reverse_append, List.reverse_cons, List.reverse_reverse]
  rw [hskipA]
  have hrp : w2.reverse ++ ' ' :: w1.reverse ≠ [] := by simp
  rw [Bar.btRev_head_some Bar.afterVarCont hrp hcont]
  simp only [List.reverse_append, List.reverse_cons, List.reverse_nil,
    List.nil_append, List.append_assoc, List.cons_append, List.reverse_reverse,
    List.singleton_append]
  simp only [ne_eq, not_true_eq_false, if_false]
  with_unfolding_all rfl

/-- Claim C7, witness for the amended theorem at the phrase
`aggression level`. -/
theorem claim_C7_witness :
    Bar.parse_rule
        ⟨"If the ".data ++ ((['a','g','g','r','e','s','s','i','o','n'] ++ (' ' :: ['l','e','v','e','l']))
          ++ (" is above the setpoint".data
          ++ (", then decrease the ".data ++ ((['a','g','g','r','e','s','s','i','o','n'] ++ (' ' :: ['l','e','v','e','l']))
          ++ (" by 2 using calming music".data ++ ['.'])))))⟩
      = some (⟨['a','g','g','r','e','s','s','i','o','n'] ++ (' ' :: ['l','e','v','e','l'])⟩,
          "above", "decrease", 2, "calming music") :=
  claim_C7_amended ['a','g','g','r','e','s','s','i','o','n'] ['l','e','v','e','l']
    (by decide) (by decide) (by decide) (by decide)

end

/-- Claim C10: non-negativity invariant of the bar variant.  For every
`BarHomeostat.run` that returns, if the initial state maps every variable
to a value ≥ 0 and the perturbation noise stream stays in `[0, 2]` (as
`random.uniform(0, 2)` guarantees), then every variable's value in every
history snapshot and in the returned final state is ≥ 0: the noise only
adds a non-negative amount and every applied rule's result is clamped with
`max(0, ...)`. -/
theorem claim_C10_bar_nonneg (init sp : HomeoCommon.SMap) (rules : List String)
    (maxIter : ℤ) (chance : ℚ) (randd noised : Nat → String → ℚ)
    (res : HomeoCommon.RunResult)
    (hinit : ∀ kv ∈ init, 0 ≤ kv.2)
    (hnoise : ∀ i v, 0 ≤ noised i v ∧ noised i v ≤ 2)
    (hrun : Bar.run init sp rules maxIter chance randd noised = .ok res) :
    (∀ s ∈ res.history, ∀ kv ∈ s, 0 ≤ kv.2) ∧
      (∀ kv ∈ res.finalState, 0 ≤ kv.2) := by
  unfold Bar.run at hrun
  exact Bar.runAux_nonneg (fun i v => (hnoise i v).1) maxIter.toNat 0 init []
    res hinit (by simp) hrun

/-- Claim C10, witness: a peaceful bar stabilizes immediately and every
recorded value is non-negative. -/
theorem claim_C10_witness :
    (∀ s ∈ ([[("aggression level", (0 : ℚ))]] : List HomeoCommon.SMap),
      ∀ kv ∈ s, 0 ≤ kv.2) ∧
      (∀ kv ∈ [("aggression level", (0 : ℚ))], 0 ≤ kv.2) := by
  have hrun : Bar.run [("aggression level", 0)] [("aggression level", 0)] []
      1 0 (fun _ _ => 0) (fun _ _ => 1)
      = .ok ⟨[("aggression level", 0)], [[("aggression level", 0)]],
          .stabilized⟩ := by with_unfolding_all rfl
  exact claim_C10_bar_nonneg [("aggression level", 0)] [("aggression level", 0)]
    [] 1 0 (fun _ _ => 0) (fun _ _ => 1) _
    (by simp) (fun i v => by norm_num) hrun

/-- Claim C1, counterexample.  A rule whose variable is present in the
State but missing from the Setpoint does not complete without error: with
state `{a: 10, x: 1}`, setpoint `{a: 0}` and the single rule on `x`, the
stability check passes `a` (gap 10, not stable, short-circuit) and the
rule loop then evaluates `self.setpoint["x"]`, raising `KeyError` after
the first history snapshot was recorded — the run does not proceed to the
next rule and does not complete. -/
theorem claim_C1_counterexample :
    Grok4.run [("a", 10), ("x", 1)] [("a", 0)]
      ["If the x is above the setpoint, then decrease the x by 1."]
      1 0 (fun _ _ => 0) (fun _ _ => 0)
      = .error ⟨"x", [[("a", 10), ("x", 1)]]⟩ := by with_unfolding_all rfl

/-- Claim C1, amended: the rule loop of `Homeostat.run` skips, without
error, every rule whose variable is absent from the State mapping,
proceeding to the next rule in order; but a rule whose variable is present
in State and missing from Setpoint raises a `KeyError` when its condition
is evaluated (the loop only guards `var not in self.state`). -/
theorem claim_C1_amended (sp st : HomeoCommon.SMap) (r : String)
    (rest : List String) (v c a : String) (n : Nat)
    (hp : Grok4.parse_rule r = some (v, c, a, n))
    (habs : HomeoCommon.lookup st v = none) :
    Grok4.ruleStep sp st (r :: rest) = Grok4.ruleStep sp st rest := by
  simp [Grok4.ruleStep, hp, habs]

/-- Claim C1, witness for the amended theorem: the rule on `humidity` is
skipped when the state only holds `temperature`, and the next rule then
fires. -/
theorem claim_C1_witness :
    Grok4.ruleStep [("temperature", 5)] [("temperature", 10)]
      ["If the humidity is above the setpoint, then decrease the humidity by 3.",
       "If the temperature is above the setpoint, then decrease the temperature by 2."]
      = Grok4.ruleStep [("temperature", 5)] [("temperature", 10)]
        ["If the temperature is above the setpoint, then decrease the temperature by 2."] :=
  claim_C1_amended [("temperature", 5)] [("temperature", 10)]
    "If the humidity is above the setpoint, then decrease the humidity by 3."
    ["If the temperature is above the setpoint, then decrease the temperature by 2."]
    "humidity" "above" "decrease" 3 rfl rfl

/-- Claim C2, counterexample.  A deviation of exactly ε = 0.01 is not
within tolerance: the code compares with strict `<` (grok4homeostat.py
lines 52 and 72), so with `state[temperature] = 0.01` and
`setpoint[temperature] = 0.0` the stability check does not classify the
state as stabilized, and the "equal to" comparator condition does not
hold.  This input is exact in the program's floats as well: there
`abs(0.01 - 0.0)` is the very same double as the tolerance literal
`0.01`, and `x < x` is false, matching the rational computation at
`1/100`. -/
theorem claim_C2_counterexample :
    HomeoCommon.stableCheck [("temperature", 1 / 100)] [("temperature", 0)]
        = .ok false ∧
      HomeoCommon.condHolds "equal to" (1 / 100) 0 = false := by
  constructor <;> with_unfolding_all rfl

/-- Claim C2, amended: the tolerance comparisons are strict, so a
deviation of exactly ε = 0.01 is classified as out of tolerance: a
variable with `|state[v] − setpoint[v]| = 0.01` makes the stability check
return `False`, and a current value with `|current − target| = 0.01` does
not satisfy the "equal to" comparator. -/
theorem claim_C2_amended (v : String) (s t : ℚ)
    (h : HomeoCommon.pyAbs (s - t) = 1 / 100) :
    HomeoCommon.stableCheck [(v, s)] [(v, t)] = .ok false ∧
      HomeoCommon.condHolds "equal to" s t = false := by
  have hnl : ¬ HomeoCommon.pyAbs (s - t) < 1 / 100 := by
    rw [h]
    exact lt_irrefl _
  constructor
  · simp only [HomeoCommon.stableCheck, HomeoCommon.lookup_cons_self]
    rw [if_neg hnl]
  · have e1 : decide (("equal to" : String) = "above") = false := rfl
    have e2 : decide (("equal to" : String) = "below") = false := rfl
    have e3 : decide (("equal to" : String) = "equal to") = true := rfl
    simp only [HomeoCommon.condHolds, e1, e2, e3, decide_eq_false hnl,
      Bool.false_and, Bool.true_and, Bool.false_or, Bool.and_false, Bool.or_false]

/-- Claim C2, witness for the amended theorem at
`state[pressure] = 99/100`, `setpoint[pressure] = 1`. -/
theorem claim_C2_witness :
    HomeoCommon.stableCheck [("pressure", 99 / 100)] [("pressure", 1)]
        = .ok false ∧
      HomeoCommon.condHolds "equal to" (99 / 100) 1 = false :=
  claim_C2_amended "pressure" (99 / 100) 1 (by with_unfolding_all rfl)

/-- Claim C3: with the three example rules, initial state
`{temperature: 10}`, setpoint `{temperature: 5}`, zero perturbation
probability and any `maxIterations ≥ 5`, the loop terminates stabilized
with final temperature exactly 5 after the snapshot sequence
10, 8, 6, 4, 5. -/
theorem claim_C3_example_run (maxIter : ℤ) (h5 : 5 ≤ maxIter)
    (randd noised : Nat → String → ℚ) (hr : ∀ i v, 0 ≤ randd i v) :
    Grok4.run [("temperature", 10)] [("temperature", 5)] Grok4.exampleRules
        maxIter 0 randd noised
      = .ok ⟨[("temperature", 5)],
          [[("temperature", 10)], [("temperature", 8)], [("temperature", 6)],
           [("temperature", 4)], [("temperature", 5)]],
          .stabilized⟩ := by
  obtain ⟨k, hk⟩ : ∃ k, maxIter.toNat = ((((k + 1) + 1) + 1) + 1) + 1 :=
    ⟨maxIter.toNat - 5, by omega⟩
  have hs0 : HomeoCommon.stableCheck [("temperature", 10)] [("temperature", 5)]
      = .ok false := by with_unfolding_all rfl
  have hs1 : HomeoCommon.stableCheck [("temperature", 8)] [("temperature", 5)]
      = .ok false := by with_unfolding_all rfl
  have hs2 : HomeoCommon.stableCheck [("temperature", 6)] [("temperature", 5)]
      = .ok false := by with_unfolding_all rfl
  have hs3 : HomeoCommon.stableCheck [("temperature", 4)] [("temperature", 5)]
      = .ok false := by with_unfolding_all rfl
  have hs4 : HomeoCommon.stableCheck [("temperature", 5)] [("temperature", 5)]
      = .ok true := by with_unfolding_all rfl
  have hr0 : Grok4.ruleStep [("temperature", 5)]
      (HomeoCommon.perturb 0 (randd 0) (noised 0) [("temperature", 10)])
      Grok4.exampleRules = .ok ([("temperature", 8)], true) := by
    rw [HomeoCommon.perturb_zero _ _ _ (fun v => hr 0 v)]
    with_unfolding_all rfl
  have hr1 : Grok4.ruleStep [("temperature", 5)]
      (HomeoCommon.perturb 0 (randd 1) (noised 1) [("temperature", 8)])
      Grok4.exampleRules = .ok ([("temperature", 6)], true) := by
    rw [HomeoCommon.perturb_zero _ _ _ (fun v => hr 1 v)]
    with_unfolding_all rfl
  have hr2 : Grok4.ruleStep [("temperature", 5)]
      (HomeoCommon.perturb 0 (randd 2) (noised 2) [("temperature", 6)])
      Grok4.exampleRules = .ok ([("temperature", 4)], true) := by
    rw [HomeoCommon.perturb_zero _ _ _ (fun v => hr 2 v)]
    with_unfolding_all rfl
  have hr3 : Grok4.ruleStep [("temperature", 5)]
      (HomeoCommon.perturb 0 (randd 3) (noised 3) [("temperature", 4)])
      Grok4.exampleRules = .ok ([("temperature", 5)], true) := by
    rw [HomeoCommon.perturb_zero _ _ _ (fun v => hr 3 v)]
    with_unfolding_all rfl
  unfold Grok4.run
  rw [hk, Grok4.runAux_step hs0 hr0, Grok4.runAux_step hs1 hr1,
    Grok4.runAux_step hs2 hr2, Grok4.runAux_step hs3 hr3,
    Grok4.runAux_stable hs4]
  rfl

/-- Claim C3, witness at `maxIterations = 5` and the all-zero random
streams. -/
theorem claim_C3_witness :
    Grok4.run [("temperature", 10)] [("temperature", 5)] Grok4.exampleRules
        5 0 (fun _ _ => 0) (fun _ _ => 0)
      = .ok ⟨[("temperature", 5)],
          [[("temperature", 10)], [("temperature", 8)], [("temperature", 6)],
           [("temperature", 4)], [("temperature", 5)]],
          .stabilized⟩ :=
  claim_C3_example_run 5 (by norm_num) (fun _ _ => 0) (fun _ _ => 0)
    (fun _ _ => le_refl 0)

/-- Claim C4: the run result carries the termination reason alongside the
final state and the history (modelling the terminal message `run` prints),
and with an empty rule list, zero perturbation probability and an initial
state out of tolerance, the loop executes exactly `maxIterations`
iterations (one history snapshot each), leaves the state unchanged, and
terminates with `MaxIterationsReached`. -/
theorem claim_C4_max_iterations (init sp : HomeoCommon.SMap) (maxIter : ℤ)
    (randd noised : Nat → String → ℚ) (h0 : 0 ≤ maxIter)
    (hgap : HomeoCommon.stableCheck init sp = .ok false)
    (hr : ∀ i v, 0 ≤ randd i v) :
    Grok4.run init sp [] maxIter 0 randd noised
      = .ok ⟨init, List.replicate maxIter.toNat init, .maxIterationsReached⟩ := by
  unfold Grok4.run
  rw [Grok4.runAux_empty_rules hgap hr maxIter.toNat 0 []]
  have : ((0 : ℕ) : ℤ) + (maxIter.toNat : ℤ) = maxIter := by
    simp [Int.toNat_of_nonneg h0]
  rw [this, if_pos rfl]
  simp

/-- Claim C4, witness: three idle iterations with `maxIterations = 3`. -/
theorem claim_C4_witness :
    Grok4.run [("x", 10)] [("x", 5)] [] 3 0 (fun _ _ => 0) (fun _ _ => 0)
      = .ok ⟨[("x", 10)], [[("x", 10)], [("x", 10)], [("x", 10)]],
          .maxIterationsReached⟩ :=
  claim_C4_max_iterations [("x", 10)] [("x", 5)] 3 (fun _ _ => 0) (fun _ _ => 0)
    (by norm_num) (by with_unfolding_all rfl) (fun _ _ => le_refl 0)

/-- Claim C5: rule evaluation is first-match-wins.  If every rule before
position `i` is passed over cleanly (fails to parse, unknown variable, or
false condition) and the rule at position `i` parses with a variable known
in state and setpoint and a true condition, then the rule loop returns
exactly that rule's action applied to the state with the applied flag set,
for every choice of the rules after position `i` — so no later rule is
ever evaluated or applied in that tick, and at most one rule's action is
applied. -/
theorem claim_C5_first_match_wins (sp st : HomeoCommon.SMap)
    (pre : List String) (r : String) (post : List String)
    (v c a : String) (n : Nat) (cur tgt : ℚ)
    (hpre : ∀ r' ∈ pre, Grok4.skipsClean sp st r')
    (hp : Grok4.parse_rule r = some (v, c, a, n))
    (hcur : HomeoCommon.lookup st v = some cur)
    (htgt : HomeoCommon.lookup sp v = some tgt)
    (hcond : HomeoCommon.condHolds c cur tgt = true) :
    Grok4.ruleStep sp st (pre ++ r :: post)
      = .ok (Grok4.applyAdj st v cur a n, true) := by
  induction pre with
  | nil => simp [Grok4.ruleStep, hp, hcur, htgt, hcond]
  | cons r' pre ih =>
    have ih' := ih (fun x hx => hpre x (List.mem_cons_of_mem _ hx))
    rcases hpre r' (List.mem_cons_self _ _) with hnone |
      ⟨v', c', a', n', hp', habs | ⟨cur', tgt', hc', ht', hcond'⟩⟩
    · rw [List.cons_append]
      simp only [Grok4.ruleStep, hnone]
      exact ih'
    · rw [List.cons_append]
      simp only [Grok4.ruleStep, hp', habs]
      exact ih'
    · rw [List.cons_append]
      simp only [Grok4.ruleStep, hp', hc', ht', hcond']
      simpa using ih'

/-- Claim C5, witness: with state `{temperature: 10}` and setpoint
`{temperature: 5}`, the below-rule is skipped, the above-rule fires and
the equal-to-rule after it is never considered. -/
theorem claim_C5_witness :
    Grok4.ruleStep [("temperature", 5)] [("temperature", 10)]
        (["If the temperature is below the setpoint, then increase the temperature by 1."]
          ++ "If the temperature is above the setpoint, then decrease the temperature by 2."
          :: ["If the temperature is equal to the setpoint, then maintain the temperature by 0."])
      = .ok (Grok4.applyAdj [("temperature", 10)] "temperature" 10 "decrease" 2, true) :=
  claim_C5_first_match_wins [("temperature", 5)] [("temperature", 10)]
    ["If the temperature is below the setpoint, then increase the temperature by 1."]
    "If the temperature is above the setpoint, then decrease the temperature by 2."
    ["If the temperature is equal to the setpoint, then maintain the temperature by 0."]
    "temperature" "above" "decrease" 2 10 5
    (fun r' hr' => by
      rw [List.mem_singleton.mp hr']
      exact Or.inr ⟨"temperature", "below", "increase", 1, rfl,
        Or.inr ⟨10, 5, rfl, rfl, by with_unfolding_all rfl⟩⟩)
    rfl rfl rfl (by with_unfolding_all rfl)

/-- Claim C8, counterexample.  No `ConfigurationError` is surfaced before
the loop: with setpoint `{}` missing the state key `x`, the loop does
begin — one history snapshot is recorded — and then a `KeyError` is
raised from inside the first stability check; and with
`maxIterations = 0` the run returns normally (no error at all), reporting
max-iterations. -/
theorem claim_C8_counterexample :
    Grok4.run [("x", 10)] [] [] 5 0 (fun _ _ => 0) (fun _ _ => 0)
        = .error ⟨"x", [[("x", 10)]]⟩ ∧
      Grok4.run [("x", 10)] [("x", 5)] [] 0 (3 / 10) (fun _ _ => 0) (fun _ _ => 0)
        = .ok ⟨[("x", 10)], [], .maxIterationsReached⟩ := by
  constructor <;> with_unfolding_all rfl

/-- Claim C8, amended: the constructor and `run` perform no configuration
validation.  With `maxIterations ≤ 0` the loop body never executes and
`run` returns the initial state with empty history and no error; with a
setpoint missing the first state key, the loop does begin — the first
history snapshot is recorded — and a `KeyError` is raised during the
first stability check. -/
theorem claim_C8_amended (sp : HomeoCommon.SMap) (rules : List String)
    (chance : ℚ) (randd noised : Nat → String → ℚ) :
    (∀ (init : HomeoCommon.SMap) (maxIter : ℤ), maxIter ≤ 0 →
      Grok4.run init sp rules maxIter chance randd noised
        = .ok ⟨init, [],
            if (0 : ℤ) = maxIter then .maxIterationsReached else .noMessage⟩) ∧
    (∀ (k : String) (x : ℚ) (rest : HomeoCommon.SMap) (maxIter : ℤ),
      1 ≤ maxIter → HomeoCommon.lookup sp k = none →
      Grok4.run ((k, x) :: rest) sp rules maxIter chance randd noised
        = .error ⟨k, [(k, x) :: rest]⟩) := by
  constructor
  · intro init maxIter hneg
    unfold Grok4.run
    rw [show maxIter.toNat = 0 from by omega]
    simp [Grok4.runAux]
  · intro k x rest maxIter hpos hmiss
    obtain ⟨f, hf⟩ : ∃ f, maxIter.toNat = f + 1 := ⟨maxIter.toNat - 1, by omega⟩
    unfold Grok4.run
    rw [hf]
    simp [Grok4.runAux, HomeoCommon.stableCheck, hmiss]

/-- Claim C8, witness for the amended theorem: a negative iteration bound
returns silently; a missing setpoint key errors after one snapshot. -/
theorem claim_C8_witness :
    Grok4.run [("x", 10)] [] [] (-1) 0 (fun _ _ => 0) (fun _ _ => 0)
        = .ok ⟨[("x", 10)], [], .noMessage⟩ ∧
      Grok4.run [("x", 10)] [] [] 2 0 (fun _ _ => 0) (fun _ _ => 0)
        = .error ⟨"x", [[("x", 10)]]⟩ :=
  ⟨(claim_C8_amended [] [] 0 (fun _ _ => 0) (fun _ _ => 0)).1
      [("x", 10)] (-1) (by norm_num),
    (claim_C8_amended [] [] 0 (fun _ _ => 0) (fun _ _ => 0)).2
      "x" 10 [] 2 (by norm_num) rfl⟩

/-- Claim C9: idempotence at the fixed point.  If a run returns with the
stabilized reason, re-invoking the loop on the returned final state with
the same setpoint, the same rules, the same iteration bound and zero
perturbation probability performs no state mutation: it stabilizes
immediately, with final state equal to its input state and a single
history snapshot. -/
theorem claim_C9_idempotent (init sp : HomeoCommon.SMap) (rules : List String)
    (maxIter : ℤ) (chance : ℚ)
    (randd noised randd2 noised2 : Nat → String → ℚ)
    (res : HomeoCommon.RunResult)
    (h1 : Grok4.run init sp rules maxIter chance randd noised = .ok res)
    (h2 : res.reason = .stabilized) :
    Grok4.run res.finalState sp rules maxIter 0 randd2 noised2
      = .ok ⟨res.finalState, [res.finalState], .stabilized⟩ := by
  have hst : HomeoCommon.stableCheck res.finalState sp = .ok true := by
    unfold Grok4.run at h1
    exact Grok4.runAux_ok_stabilized maxIter.toNat 0 init [] res h1 h2
  have hfuel : 1 ≤ maxIter.toNat := Grok4.run_stabilized_fuel_pos h1 h2
  obtain ⟨f, hf⟩ : ∃ f, maxIter.toNat = f + 1 := ⟨maxIter.toNat - 1, by omega⟩
  unfold Grok4.run
  rw [hf, Grok4.runAux_stable hst]
  rfl

/-- Claim C9, witness: the stabilizing example run, then the re-invocation
on its final state. -/
theorem claim_C9_witness :
    Grok4.run [("temperature", 5)] [("temperature", 5)] Grok4.exampleRules
        5 0 (fun _ _ => 0) (fun _ _ => 0)
      = .ok ⟨[("temperature", 5)], [[("temperature", 5)]], .stabilized⟩ := by
  have h1 : Grok4.run [("temperature", 10)] [("temperature", 5)]
      Grok4.exampleRules 5 0 (fun _ _ => 0) (fun _ _ => 0)
      = .ok ⟨[("temperature", 5)],
          [[("temperature", 10)], [("temperature", 8)], [("temperature", 6)],
           [("temperature", 4)], [("temperature", 5)]],
          .stabilized⟩ := by with_unfolding_all rfl
  exact claim_C9_idempotent [("temperature", 10)] [("temperature", 5)]
    Grok4.exampleRules 5 0 (fun _ _ => 0) (fun _ _ => 0)
    (fun _ _ => 0) (fun _ _ => 0) _ h1 rfl

/-- Claim C6, counterexample.  `parse_rule` does not fail with a parse
error distinct from the other failure kinds: on a variable mismatch it
returns the very same `None` that it returns for a malformed amount and
for unrecognized text, so no `ParseError::VariableMismatch` value distinct
from `Unrecognized` and `MalformedAmount` exists in the code. -/
theorem claim_C6_counterexample :
    Grok4.parse_rule "If the X is above the setpoint, then decrease the Y by 2."
        = none ∧
      Grok4.parse_rule
          "If the temperature is above the setpoint, then decrease the temperature by -2."
        = none ∧
      Grok4.parse_rule "not a rule" = none := ⟨rfl, rfl, rfl⟩

/-- Claim C6, amended: for every rule text matching the grammar except
that the variable word in the condition clause differs from the variable
word in the action clause, `parse_rule` rejects the rule — but by
returning the undistinguished `None`, not a dedicated error value.  Stated
for the grammar family `If the X is above the setpoint, then decrease the
Y by 2.` over arbitrary word-character variable names `X ≠ Y`. -/
theorem claim_C6_amended (X Y : List Char)
    (hX : X ≠ []) (hY : Y ≠ [])
    (hXw : ∀ c ∈ X, HomeoCommon.isWordChar c = true)
    (hYw : ∀ c ∈ Y, HomeoCommon.isWordChar c = true)
    (hne : X ≠ Y) :
    Grok4.parse_rule
        ⟨"If the ".data ++ (X ++ (" is above the setpoint, then decrease the ".data
          ++ (Y ++ " by 2.".data)))⟩ = none := by
  have mk_data : ∀ l : List Char, String.data ⟨l⟩ = l := fun _ => rfl
  simp only [Grok4.parse_rule, mk_data, HomeoCommon.expectLit_self_append]
  simp only [List.cons_append]
  rw [HomeoCommon.takeRun_append_cons _ X ' ' _ hXw (by decide)]
  simp only [List.nil_append, hX, if_false]
  simp [HomeoCommon.expectLit, Grok4.compParse, Grok4.tailParse,
    HomeoCommon.takeRun, HomeoCommon.isWordChar,
    HomeoCommon.takeRun_append_cons, hXw, hYw, hX, hY, hne, List.cons_append]
  rw [HomeoCommon.takeRun_append_cons _ Y ' ' _ hYw (by decide)]
  simp [HomeoCommon.expectLit, HomeoCommon.takeRun, hne, hY]

/-- Claim C6, witness for the amended theorem at `X`, `Y`. -/
theorem claim_C6_witness :
    Grok4.parse_rule
        ⟨"If the ".data ++ (['X'] ++ (" is above the setpoint, then decrease the ".data
          ++ (['Y'] ++ " by 2.".data)))⟩ = none :=
  claim_C6_amended ['X'] ['Y'] (by decide) (by decide) (by decide) (by decide)
    (by decide)
